import Mathlib

/-!
Shallow embedding of the fin-track back-office application
(`src/track/views.py`, `src/track/models.py`).

Conventions of the embedding:
  * Django model rows become Lean structures; the autogenerated primary key
    is an explicit `id : Nat` field, and each table carries a `next...Id`
    counter mirroring the autoincrement sequence.
  * `DecimalField` values are exact decimals; all arithmetic performed on
    them by the source is addition, subtraction, `int × decimal`
    multiplication and `max`, so they are embedded as exact `Int` values
    (in the smallest decimal unit).  `PositiveIntegerField` columns are
    `Int` together with the database CHECK constraint `value >= 0` that
    Django emits for them: an insert/update with a negative value raises
    `IntegrityError`, which the views' `except Exception` blocks turn into
    an HTTP 400 response with no row written.  A value of `0` satisfies
    the constraint.
  * Dates are opaque ordered values (`Nat` where the source compares them,
    `String` where it only stores them).
  * Each view's `post`/`get` handler becomes a function from the current
    database state and the request's (already type-parsed) fields to the
    new state and a response.  Views read `request.user` only through
    `is_staff`; that flag is passed explicitly, and handlers that never
    consult the user take it as an ignored argument.
-/

namespace FinTrack

/-- Outcome of an API view: a success `JsonResponse` (HTTP 200) carrying a
payload summary, or an error `JsonResponse` with a status code and the
error message string. -/
inductive Resp where
  | ok (info : String)
  | err (status : Nat) (msg : String)
  deriving DecidableEq, Repr

/-- HTTP status code of a response (`JsonResponse` defaults to 200). -/
def Resp.statusCode : Resp → Nat
  | .ok _ => 200
  | .err s _ => s

/-- Whether the response is a success response. -/
def Resp.isOk : Resp → Bool
  | .ok _ => true
  | .err _ _ => false

/-- The fixed message of `check_staff_permission` in `views.py`. -/
def permissionDeniedMsg : String :=
  "Permission denied. Only staff users can perform this action."

/-- The fixed message of the inline staff checks on employee-delete and the
warehouse views. -/
def notAuthorizedMsg : String := "Not authorized"

/-- `Model.objects.get(id=k)` followed by mutation/`delete()` of the fetched
row: returns the unique row matching the predicate together with the
remaining rows, or `none` (`DoesNotExist`).  Primary keys are unique in the
schema, so removing the first match is removing the only match. -/
def extractBy (p : α → Bool) : List α → Option (α × List α)
  | [] => none
  | x :: xs =>
    if p x then some (x, xs)
    else
      match extractBy p xs with
      | none => none
      | some (y, rest) => some (y, x :: rest)

/- ## Ledger data model (`Employee`, `MonthlyEntry`, `MonthlyProduct`,
`MonthlyPayment`) -/

/-- A `MonthlyEntry` row: per-employee, per-month ledger with a running
`balance` (`DecimalField`). -/
structure EntryRec where
  id : Nat
  employee_id : Nat
  month : String
  balance : Int
  deriving DecidableEq, Repr

/-- A `MonthlyProduct` row; `total_amount` is computed at creation time as
`quantity * price_per_unit`. -/
structure ProductRec where
  id : Nat
  entry_id : Nat
  product_name : String
  quantity : Int
  price_per_unit : Int
  total_amount : Int
  deriving DecidableEq, Repr

/-- A `MonthlyPayment` row. -/
structure PaymentRec where
  id : Nat
  entry_id : Nat
  amount : Int
  descr : String
  payment_date : String
  deriving DecidableEq, Repr

/-- The ledger tables: employee ids, monthly entries, their products and
payments, plus the autoincrement counters. -/
structure LedgerDB where
  employees : List Nat
  entries : List EntryRec
  products : List ProductRec
  payments : List PaymentRec
  nextEntryId : Nat
  nextProductId : Nat
  nextPaymentId : Nat
  deriving DecidableEq, Repr

/-- `AddProductAPIView.post`: fetch the entry (`DoesNotExist` gives 400 via
the catch-all), create the product with `total_amount = quantity *
price_per_unit` (a negative quantity violates the `PositiveIntegerField`
check constraint, 400, nothing written), then `entry.balance +=
total_amount; entry.save()`.  The view performs no staff check. -/
def addProduct (_is_staff : Bool) (db : LedgerDB) (entry_id : Nat)
    (product_name : String) (quantity price_per_unit : Int) :
    LedgerDB × Resp :=
  match db.entries.find? (fun e => e.id == entry_id) with
  | none => (db, .err 400 "MonthlyEntry matching query does not exist.")
  | some _ =>
    if quantity < 0 then
      (db, .err 400 "CHECK constraint failed: quantity")
    else
      let total_amount := quantity * price_per_unit
      let product : ProductRec :=
        { id := db.nextProductId, entry_id := entry_id,
          product_name := product_name, quantity := quantity,
          price_per_unit := price_per_unit, total_amount := total_amount }
      let db' : LedgerDB :=
        { db with
          products := db.products ++ [product],
          entries := db.entries.map (fun e =>
            if e.id == entry_id then
              { e with balance := e.balance + total_amount }
            else e),
          nextProductId := db.nextProductId + 1 }
      (db', .ok "product created")

/-- `DeleteProductAPIView.post`: fetch the product (404 if absent),
`entry.balance -= product.total_amount; entry.save()`, then delete the
product row.  No staff check. -/
def deleteProduct (_is_staff : Bool) (db : LedgerDB) (product_id : Nat) :
    LedgerDB × Resp :=
  match extractBy (fun p => p.id == product_id) db.products with
  | none => (db, .err 404 "Product not found")
  | some (product, rest) =>
    let db' : LedgerDB :=
      { db with
        entries := db.entries.map (fun e =>
          if e.id == product.entry_id then
            { e with balance := e.balance - product.total_amount }
          else e),
        products := rest }
    (db', .ok "product deleted")

/-- `AddPaymentAPIView.post`: fetch the entry (missing entry gives 400 via
the catch-all), create the payment, then `entry.balance -= amount`.
No staff check. -/
def addPayment (_is_staff : Bool) (db : LedgerDB) (entry_id : Nat)
    (amount : Int) (descr payment_date : String) : LedgerDB × Resp :=
  match db.entries.find? (fun e => e.id == entry_id) with
  | none => (db, .err 400 "MonthlyEntry matching query does not exist.")
  | some _ =>
    let payment : PaymentRec :=
      { id := db.nextPaymentId, entry_id := entry_id, amount := amount,
        descr := descr, payment_date := payment_date }
    let db' : LedgerDB :=
      { db with
        payments := db.payments ++ [payment],
        entries := db.entries.map (fun e =>
          if e.id == entry_id then
            { e with balance := e.balance - amount }
          else e),
        nextPaymentId := db.nextPaymentId + 1 }
    (db', .ok "payment created")

/-- `DeletePaymentAPIView.post`: fetch the payment (404 if absent),
`entry.balance += payment.amount`, then delete the payment row.
No staff check. -/
def deletePayment (_is_staff : Bool) (db : LedgerDB) (payment_id : Nat) :
    LedgerDB × Resp :=
  match extractBy (fun p => p.id == payment_id) db.payments with
  | none => (db, .err 404 "Payment not found")
  | some (payment, rest) =>
    let db' : LedgerDB :=
      { db with
        entries := db.entries.map (fun e =>
          if e.id == payment.entry_id then
            { e with balance := e.balance + payment.amount }
          else e),
        payments := rest }
    (db', .ok "payment deleted")

/-- `CreateMonthlyEntryAPIView.post`: reject with the fixed conflict
message if an entry for `(employee_id, month)` already exists; otherwise
create one with `balance = Decimal('0')` (a missing employee violates the
foreign key, 400, nothing written).  No staff check. -/
def createMonthlyEntry (_is_staff : Bool) (db : LedgerDB)
    (employee_id : Nat) (month : String) : LedgerDB × Resp :=
  match db.entries.find?
      (fun e => e.employee_id == employee_id && e.month == month) with
  | some _ =>
    (db, .err 400 "Monthly entry already exists for this employee and month")
  | none =>
    if db.employees.contains employee_id then
      ({ db with
          entries := db.entries ++
            [{ id := db.nextEntryId, employee_id := employee_id,
               month := month, balance := 0 }],
          nextEntryId := db.nextEntryId + 1 },
       .ok "entry created")
    else
      (db, .err 400 "FOREIGN KEY constraint failed")

/-- One request against the ledger endpoints operating on products and
payments (the four mutators of claim scope). -/
inductive LedgerOp where
  | addProduct (entry_id : Nat) (product_name : String)
      (quantity price_per_unit : Int)
  | deleteProduct (product_id : Nat)
  | addPayment (entry_id : Nat) (amount : Int) (descr payment_date : String)
  | deletePayment (payment_id : Nat)
  deriving DecidableEq, Repr

/-- State reached after serving one ledger request (any authenticated user;
these handlers ignore the staff flag). -/
def applyLedgerOp (db : LedgerDB) : LedgerOp → LedgerDB
  | .addProduct i n q p => (addProduct true db i n q p).1
  | .deleteProduct i => (deleteProduct true db i).1
  | .addPayment i a d pd => (addPayment true db i a d pd).1
  | .deletePayment i => (deletePayment true db i).1

/-- State reached after serving a sequence of ledger requests in order. -/
def applyLedgerOps (db : LedgerDB) : List LedgerOp → LedgerDB
  | [] => db
  | op :: ops => applyLedgerOps (applyLedgerOp db op) ops

/-- Sum of `total_amount` over the products belonging to entry `i`. -/
def prodSum (ps : List ProductRec) (i : Nat) : Int :=
  ((ps.filter (fun p => p.entry_id == i)).map (fun p => p.total_amount)).sum

/-- Sum of `amount` over the payments belonging to entry `i`. -/
def paySum (ps : List PaymentRec) (i : Nat) : Int :=
  ((ps.filter (fun p => p.entry_id == i)).map (fun p => p.amount)).sum

/-- The ledger invariant: every entry's denormalized `balance` equals the
sum of its remaining products' totals minus the sum of its remaining
payments' amounts. -/
def EntryInv (db : LedgerDB) : Prop :=
  ∀ e ∈ db.entries, e.balance = prodSum db.products e.id - paySum db.payments e.id

/-- A fresh database holding one employee and one `MonthlyEntry` for them
with balance 0 and no products or payments. -/
def initialEntryDB (eid emp : Nat) (month : String) : LedgerDB :=
  { employees := [emp],
    entries := [{ id := eid, employee_id := emp, month := month, balance := 0 }],
    products := [], payments := [],
    nextEntryId := eid + 1, nextProductId := 0, nextPaymentId := 0 }

/- ## Warehouse data model (`WarehouseItem`, `WarehouseMovement`) -/

/-- A `WarehouseItem` row; `quantity` is a `PositiveIntegerField` and
`quantity_kg` a `DecimalField`. -/
structure ItemRec where
  id : Nat
  name : String
  descr : String
  quantity : Int
  quantity_kg : Int
  deriving DecidableEq, Repr

/-- A `WarehouseMovement` row; `mtype` is the `type` column, the string
`"in"` or `"out"` (validated by the view before creation). -/
structure MovementRec where
  id : Nat
  item_id : Nat
  mtype : String
  quantity : Int
  quantity_kg : Int
  mdate : String
  descr : String
  deriving DecidableEq, Repr

/-- The warehouse tables with their autoincrement counters. -/
structure WarehouseDB where
  items : List ItemRec
  movements : List MovementRec
  nextItemId : Nat
  nextMovementId : Nat
  deriving DecidableEq, Repr

/-- `CreateWarehouseItemAPIView.post` (JSON path): staff only; name and
`description` are stripped; empty name is rejected; a negative `quantity`
violates the check constraint (400, nothing written); `quantity_kg` is
unchecked. -/
def createWarehouseItem (is_staff : Bool) (db : WarehouseDB) (name : String)
    (quantity quantity_kg : Int) (descr : String) : WarehouseDB × Resp :=
  if !is_staff then (db, .err 403 notAuthorizedMsg)
  else
    let name := name.trim
    if name == "" then (db, .err 400 "Name is required")
    else if quantity < 0 then
      (db, .err 400 "CHECK constraint failed: quantity")
    else
      ({ db with
          items := db.items ++
            [{ id := db.nextItemId, name := name, descr := descr.trim,
               quantity := quantity, quantity_kg := quantity_kg }],
          nextItemId := db.nextItemId + 1 },
       .ok "item created")

/-- `UpdateWarehouseItemAPIView.post`: staff only; each field present in
the body overwrites the attribute, omitted fields are untouched; a negative
new `quantity` makes the save violate the check constraint (400, row
unchanged). -/
def updateWarehouseItem (is_staff : Bool) (db : WarehouseDB) (item_id : Nat)
    (name descr : Option String) (quantity quantity_kg : Option Int) :
    WarehouseDB × Resp :=
  if !is_staff then (db, .err 403 notAuthorizedMsg)
  else
    match db.items.find? (fun it => it.id == item_id) with
    | none => (db, .err 404 "Item not found")
    | some it =>
      let it' : ItemRec :=
        { it with
          name := name.getD it.name,
          descr := descr.getD it.descr,
          quantity := quantity.getD it.quantity,
          quantity_kg := quantity_kg.getD it.quantity_kg }
      if it'.quantity < 0 then
        (db, .err 400 "CHECK constraint failed: quantity")
      else
        ({ db with
            items := db.items.map (fun j => if j.id == item_id then it' else j) },
         .ok "item updated")

/-- `DeleteWarehouseItemAPIView.post`: staff only; deleting an item also
removes its movements (`on_delete=CASCADE`). -/
def deleteWarehouseItem (is_staff : Bool) (db : WarehouseDB) (item_id : Nat) :
    WarehouseDB × Resp :=
  if !is_staff then (db, .err 403 notAuthorizedMsg)
  else
    match extractBy (fun it => it.id == item_id) db.items with
    | none => (db, .err 404 "Item not found")
    | some (_, rest) =>
      ({ db with
          items := rest,
          movements := db.movements.filter (fun m => !(m.item_id == item_id)) },
       .ok "item deleted")

/-- `WarehouseMovementAPIView.post`: staff only.  The view rejects a falsy
`item_id`, a falsy `type`, or both quantities non-positive; then rejects a
type outside `{"in", "out"}`; then fetches the item (404 if absent); the
movement row is created with the *request's* quantities (a negative
`quantity` violates the check constraint — 400, nothing written — while a
negative `quantity_kg` is accepted); finally the item is updated: `in`
adds both quantities, `out` subtracts and clamps each at zero. -/
def addWarehouseMovement (is_staff : Bool) (db : WarehouseDB) (item_id : Nat)
    (mtype : String) (quantity quantity_kg : Int) (mdate descr : String) :
    WarehouseDB × Resp :=
  if !is_staff then (db, .err 403 notAuthorizedMsg)
  else if item_id == 0 || mtype == "" || (quantity ≤ 0 && quantity_kg ≤ 0) then
    (db, .err 400 "Invalid data")
  else if !(mtype == "in" || mtype == "out") then
    (db, .err 400 "Type must be \"in\" or \"out\"")
  else
    match db.items.find? (fun it => it.id == item_id) with
    | none => (db, .err 404 "Item not found")
    | some _ =>
      if quantity < 0 then
        (db, .err 400 "CHECK constraint failed: quantity")
      else
        let movement : MovementRec :=
          { id := db.nextMovementId, item_id := item_id, mtype := mtype,
            quantity := quantity, quantity_kg := quantity_kg,
            mdate := mdate, descr := descr.trim }
        let db' : WarehouseDB :=
          { db with
            movements := db.movements ++ [movement],
            items := db.items.map (fun it =>
              if it.id == item_id then
                if mtype == "in" then
                  { it with quantity := it.quantity + quantity,
                            quantity_kg := it.quantity_kg + quantity_kg }
                else
                  { it with quantity := max 0 (it.quantity - quantity),
                            quantity_kg := max 0 (it.quantity_kg - quantity_kg) }
              else it),
            nextMovementId := db.nextMovementId + 1 }
        (db', .ok "movement created")

/-- `DeleteWarehouseMovementAPIView.post`: staff only; fetch the movement
(404 if absent) and its owning item; reverse the original effect — an
`"in"` movement's quantities are subtracted, any other type's are added
back — then clamp **both** `quantity` and `quantity_kg` at zero
unconditionally (the `max(0, ...)` lines sit outside the `if`), save the
item and delete the movement row. -/
def deleteWarehouseMovement (is_staff : Bool) (db : WarehouseDB)
    (movement_id : Nat) : WarehouseDB × Resp :=
  if !is_staff then (db, .err 403 notAuthorizedMsg)
  else
    match extractBy (fun m => m.id == movement_id) db.movements with
    | none => (db, .err 404 "Movement not found")
    | some (movement, rest) =>
      match db.items.find? (fun it => it.id == movement.item_id) with
      | none => (db, .err 400 "related WarehouseItem does not exist")
      | some _ =>
        let db' : WarehouseDB :=
          { db with
            items := db.items.map (fun it =>
              if it.id == movement.item_id then
                let q := if movement.mtype == "in" then
                    it.quantity - movement.quantity
                  else it.quantity + movement.quantity
                let k := if movement.mtype == "in" then
                    it.quantity_kg - movement.quantity_kg
                  else it.quantity_kg + movement.quantity_kg
                { it with quantity := max 0 q, quantity_kg := max 0 k }
              else it),
            movements := rest }
        (db', .ok "movement deleted")

/-- One request against the warehouse movement endpoints. -/
inductive WarehouseOp where
  | add (is_staff : Bool) (item_id : Nat) (mtype : String)
      (quantity quantity_kg : Int) (mdate descr : String)
  | del (is_staff : Bool) (movement_id : Nat)
  deriving DecidableEq, Repr

/-- State reached after serving one movement request. -/
def applyWarehouseOp (db : WarehouseDB) : WarehouseOp → WarehouseDB
  | .add s i t q k d ds => (addWarehouseMovement s db i t q k d ds).1
  | .del s m => (deleteWarehouseMovement s db m).1

/-- State reached after serving a sequence of movement requests in order. -/
def applyWarehouseOps (db : WarehouseDB) : List WarehouseOp → WarehouseDB
  | [] => db
  | op :: ops => applyWarehouseOps (applyWarehouseOp db op) ops

/-- Non-negativity of every item's stock figures. -/
def itemsNonneg (db : WarehouseDB) : Prop :=
  ∀ it ∈ db.items, 0 ≤ it.quantity ∧ 0 ≤ it.quantity_kg

/-- An AddMovement request whose `quantity_kg` is non-negative (the domain
given to the operation by the specification); DeleteMovement requests are
unrestricted. -/
def WarehouseOp.kgNonneg : WarehouseOp → Prop
  | .add _ _ _ _ k _ _ => 0 ≤ k
  | .del _ _ => True

instance : DecidablePred WarehouseOp.kgNonneg := fun op => by
  cases op <;> simp [WarehouseOp.kgNonneg] <;> infer_instance

/- ## Transaction data model (`PaymentMethod`, `Transaction`) -/

/-- A `Transaction` row; `ttype` is the `type` column, `amount` a
`PositiveIntegerField`, `tdate` the `date` column (dates are opaque
ordered values). -/
structure TxRec where
  id : Nat
  ttype : String
  currency : String
  amount : Int
  descr : String
  tdate : Nat
  method_id : Nat
  deriving DecidableEq, Repr

/-- The transaction table, the payment-method ids it can reference, and
the autoincrement counter. -/
structure TxDB where
  methods : List Nat
  txs : List TxRec
  nextTxId : Nat
  deriving DecidableEq, Repr

/-- Membership of a currency code in `Transaction.CURRENCY_CHOICES`. -/
def validCurrency (c : String) : Bool :=
  c == "uzs" || c == "usd" || c == "afn"

/-- `data.get('currency', 'uzs')` followed by the membership test in
`CreateTransactionAPIView.post`: a missing (or null) value defaults to
`'uzs'`, an unrecognized value is replaced by `'uzs'`. -/
def normalizeCurrency : Option String → String
  | none => "uzs"
  | some c => if validCurrency c then c else "uzs"

/-- `CreateTransactionAPIView.post`: staff only (`check_staff_permission`);
the currency is normalized as above; the insert fails on a negative
`amount` (check constraint) or an unknown `method` (FK), both mapped to
400 by the catch-all with nothing written. -/
def createTransaction (is_staff : Bool) (db : TxDB) (ttype : String)
    (amount : Int) (descr : String) (tdate : Nat) (method_id : Nat)
    (currency : Option String) : TxDB × Resp :=
  if !is_staff then (db, .err 403 permissionDeniedMsg)
  else if amount < 0 then (db, .err 400 "CHECK constraint failed: amount")
  else if !(db.methods.contains method_id) then
    (db, .err 400 "FOREIGN KEY constraint failed")
  else
    ({ db with
        txs := db.txs ++
          [{ id := db.nextTxId, ttype := ttype,
             currency := normalizeCurrency currency, amount := amount,
             descr := descr, tdate := tdate, method_id := method_id }],
        nextTxId := db.nextTxId + 1 },
     .ok "transaction created")

/-- `TransactionDetailAPIView.post`: staff only; fetch the row (404 if
absent); each provided field replaces the attribute, the current value
being the `data.get` default; the currency is assigned only when the
provided value is one of the three codes; saving fails on a negative
amount or unknown method (400, row unchanged). -/
def updateTransaction (is_staff : Bool) (db : TxDB) (tid : Nat)
    (ttype : Option String) (amount : Option Int) (descr : Option String)
    (tdate : Option Nat) (method_id : Option Nat)
    (currency : Option String) : TxDB × Resp :=
  if !is_staff then (db, .err 403 permissionDeniedMsg)
  else
    match db.txs.find? (fun t => t.id == tid) with
    | none => (db, .err 404 "Transaction not found")
    | some t =>
      let t' : TxRec :=
        { t with
          ttype := ttype.getD t.ttype,
          amount := amount.getD t.amount,
          descr := descr.getD t.descr,
          tdate := tdate.getD t.tdate,
          method_id := method_id.getD t.method_id,
          currency :=
            match currency with
            | some c => if validCurrency c then c else t.currency
            | none => t.currency }
      if t'.amount < 0 then (db, .err 400 "CHECK constraint failed: amount")
      else if !(db.methods.contains t'.method_id) then
        (db, .err 400 "FOREIGN KEY constraint failed")
      else
        ({ db with txs := db.txs.map (fun x => if x.id == tid then t' else x) },
         .ok "transaction updated")

/-- `DeleteTransactionAPIView.post`: staff only; fetch the row (404 if
absent) and delete it. -/
def deleteTransaction (is_staff : Bool) (db : TxDB) (tid : Nat) :
    TxDB × Resp :=
  if !is_staff then (db, .err 403 permissionDeniedMsg)
  else
    match extractBy (fun t => t.id == tid) db.txs with
    | none => (db, .err 404 "Transaction not found")
    | some (_, rest) => ({ db with txs := rest }, .ok "transaction deleted")

/-- One request against the transaction write endpoints. -/
inductive TxOp where
  | create (is_staff : Bool) (ttype : String) (amount : Int) (descr : String)
      (tdate : Nat) (method_id : Nat) (currency : Option String)
  | update (is_staff : Bool) (tid : Nat) (ttype : Option String)
      (amount : Option Int) (descr : Option String) (tdate : Option Nat)
      (method_id : Option Nat) (currency : Option String)
  | del (is_staff : Bool) (tid : Nat)
  deriving DecidableEq, Repr

/-- State reached after serving one transaction write request. -/
def applyTxOp (db : TxDB) : TxOp → TxDB
  | .create s t a d dt m c => (createTransaction s db t a d dt m c).1
  | .update s tid t a d dt m c => (updateTransaction s db tid t a d dt m c).1
  | .del s tid => (deleteTransaction s db tid).1

/-- State reached after serving a sequence of transaction write requests. -/
def applyTxOps (db : TxDB) : List TxOp → TxDB
  | [] => db
  | op :: ops => applyTxOps (applyTxOp db op) ops

/-- Every stored transaction carries one of the three currency codes. -/
def txCurrenciesValid (db : TxDB) : Prop :=
  ∀ t ∈ db.txs, validCurrency t.currency = true

/- ## User and employee records (staff-gate surface) -/

/-- A `django.contrib.auth` user row as the API reads and writes it
(`password` stands for the stored credential `set_password` writes). -/
structure UserRec where
  id : Nat
  username : String
  password : String
  first_name : String
  last_name : String
  email : String
  is_staff : Bool
  is_active : Bool
  deriving DecidableEq, Repr

/-- The user table with its autoincrement counter. -/
structure UserDB where
  users : List UserRec
  nextUserId : Nat
  deriving DecidableEq, Repr

/-- `CreateUserAPIView.post`: rejects a duplicate username, otherwise
creates the user with the supplied fields — the handler never consults
`request.user.is_staff`, so any authenticated user (staff or not) can
create users, including staff ones. -/
def createUser (_is_staff : Bool) (db : UserDB)
    (username password first_name last_name email : String)
    (staff_flag active_flag : Bool) : UserDB × Resp :=
  if (db.users.find? (fun u => u.username == username)).isSome then
    (db, .err 400 "Username already exists")
  else
    ({ db with
        users := db.users ++
          [{ id := db.nextUserId, username := username, password := password,
             first_name := first_name, last_name := last_name, email := email,
             is_staff := staff_flag, is_active := active_flag }],
        nextUserId := db.nextUserId + 1 },
     .ok "user created")

/-- `UserDetailAPIView.post`: fetch the user (404 if absent); each field
present in the body replaces the attribute, the current value being the
`data.get` default; the password is set only when a truthy (non-empty)
value is provided; the username is not touched.  No staff check. -/
def updateUser (_is_staff : Bool) (db : UserDB) (user_id : Nat)
    (first_name last_name email : Option String)
    (staff_flag active_flag : Option Bool) (password : Option String) :
    UserDB × Resp :=
  match db.users.find? (fun u => u.id == user_id) with
  | none => (db, .err 404 "User not found")
  | some u =>
    let u' : UserRec :=
      { u with
        first_name := first_name.getD u.first_name,
        last_name := last_name.getD u.last_name,
        email := email.getD u.email,
        is_staff := staff_flag.getD u.is_staff,
        is_active := active_flag.getD u.is_active,
        password :=
          match password with
          | some p => if p == "" then u.password else p
          | none => u.password }
    ({ db with users := db.users.map (fun x => if x.id == user_id then u' else x) },
     .ok "user updated")

/-- `DeleteUserAPIView.post`: fetch the user (404 if absent) and delete
it.  No staff check. -/
def deleteUser (_is_staff : Bool) (db : UserDB) (user_id : Nat) :
    UserDB × Resp :=
  match extractBy (fun u => u.id == user_id) db.users with
  | none => (db, .err 404 "User not found")
  | some (_, rest) => ({ db with users := rest }, .ok "user deleted")

/-- An `Employee` row as far as the delete endpoint needs it. -/
structure EmployeeRec where
  id : Nat
  first_name : String
  deriving DecidableEq, Repr

/-- The employee table. -/
structure EmployeeDB where
  emps : List EmployeeRec
  nextEmployeeId : Nat
  deriving DecidableEq, Repr

/-- `DeleteEmployeeAPIView.post`: staff only; fetch the employee (404 if
absent) and delete it. -/
def deleteEmployee (is_staff : Bool) (db : EmployeeDB) (employee_id : Nat) :
    EmployeeDB × Resp :=
  if !is_staff then (db, .err 403 notAuthorizedMsg)
  else
    match extractBy (fun e => e.id == employee_id) db.emps with
    | none => (db, .err 404 "Employee not found")
    | some (_, rest) => ({ db with emps := rest }, .ok "employee deleted")

/- ## Stats aggregation (`StatsAPIView.get`) -/

/-- The optional query parameters of `/api/stats/` (and
`/api/transactions/`); a `none` stands for an absent or empty (falsy)
parameter, which applies no filter. -/
structure StatFilters where
  ftype : Option String
  method : Option Nat
  date_from : Option Nat
  date_to : Option Nat
  currency : Option String
  deriving DecidableEq, Repr

/-- The successive queryset `.filter(...)` calls of `StatsAPIView.get`:
type, method, `date__gte`, `date__lte`, then currency — the last applied
only when the parameter is one of the three known codes. -/
def applyStatFilters (txs : List TxRec) (f : StatFilters) : List TxRec :=
  let l1 := match f.ftype with
    | some s => txs.filter (fun t => t.ttype == s)
    | none => txs
  let l2 := match f.method with
    | some m => l1.filter (fun t => t.method_id == m)
    | none => l1
  let l3 := match f.date_from with
    | some d => l2.filter (fun t => decide (d ≤ t.tdate))
    | none => l2
  let l4 := match f.date_to with
    | some d => l3.filter (fun t => decide (t.tdate ≤ d))
    | none => l3
  match f.currency with
  | some c => if validCurrency c then l4.filter (fun t => t.currency == c) else l4
  | none => l4

/-- Sum of the `amount` column over a list of rows (`Coalesce(Sum(...), 0)`
— the empty sum is 0, never null). -/
def sumAmounts (l : List TxRec) : Int := (l.map (fun t => t.amount)).sum

/-- The `incomes_<curr>` figure of the stats loop body: filter the
already-filtered queryset to the currency, then to income rows, and sum. -/
def statsIncomes (txs : List TxRec) (f : StatFilters) (curr : String) : Int :=
  sumAmounts (((applyStatFilters txs f).filter
    (fun t => t.currency == curr)).filter (fun t => t.ttype == "income"))

/-- The `expenses_<curr>` figure of the stats loop body. -/
def statsExpenses (txs : List TxRec) (f : StatFilters) (curr : String) : Int :=
  sumAmounts (((applyStatFilters txs f).filter
    (fun t => t.currency == curr)).filter (fun t => t.ttype == "expense"))

/-- The `balance_<curr>` figure: `inc - exp` as computed by the loop. -/
def statsBalance (txs : List TxRec) (f : StatFilters) (curr : String) : Int :=
  statsIncomes txs f curr - statsExpenses txs f curr

/-- Spec-side filter predicate, written from the specification's words: a
row matches when it satisfies every supplied filter (type, method, date
range, and — when the parameter is a known code — currency). -/
def specMatchesFilters (f : StatFilters) (t : TxRec) : Bool :=
  ((((match f.ftype with | some s => t.ttype == s | none => true)
    && (match f.method with | some m => t.method_id == m | none => true))
    && (match f.date_from with | some d => decide (d ≤ t.tdate) | none => true))
    && (match f.date_to with | some d => decide (t.tdate ≤ d) | none => true))
    && (match f.currency with
        | some c => if validCurrency c then t.currency == c else true
        | none => true)

/- ## List bookkeeping lemmas -/

theorem filter_map_sum_append_single (ps : List ProductRec) (p : ProductRec)
    (i : Nat) :
    prodSum (ps ++ [p]) i =
      prodSum ps i + (if p.entry_id == i then p.total_amount else 0) := by
  simp only [prodSum, List.filter_append]
  by_cases h : p.entry_id == i <;> simp [h]

theorem paySum_append_single (ps : List PaymentRec) (p : PaymentRec)
    (i : Nat) :
    paySum (ps ++ [p]) i =
      paySum ps i + (if p.entry_id == i then p.amount else 0) := by
  simp only [paySum, List.filter_append]
  by_cases h : p.entry_id == i <;> simp [h]

theorem extractBy_matches {p : α → Bool} :
    ∀ {l : List α} {x : α} {rest : List α},
      extractBy p l = some (x, rest) → p x = true := by
  intro l
  induction l with
  | nil => intro x rest h; simp [extractBy] at h
  | cons a as ih =>
    intro x rest h
    by_cases hp : p a
    · simp [extractBy, hp] at h
      obtain ⟨rfl, rfl⟩ := h
      exact hp
    · simp [extractBy, hp] at h
      cases he : extractBy p as with
      | none => rw [he] at h; simp at h
      | some yr =>
        rw [he] at h
        simp at h
        obtain ⟨rfl, -⟩ := h
        exact ih he

theorem extractBy_mem {p : α → Bool} :
    ∀ {l : List α} {x y : α} {rest : List α},
      extractBy p l = some (x, rest) → y ∈ rest → y ∈ l := by
  intro l
  induction l with
  | nil => intro x y rest h; simp [extractBy] at h
  | cons a as ih =>
    intro x y rest h hy
    by_cases hp : p a
    · simp [extractBy, hp] at h
      obtain ⟨rfl, rfl⟩ := h
      exact List.mem_cons_of_mem a hy
    · simp [extractBy, hp] at h
      cases he : extractBy p as with
      | none => rw [he] at h; simp at h
      | some yr =>
        rw [he] at h
        simp at h
        obtain ⟨rfl, rfl⟩ := h
        rcases List.mem_cons.mp hy with h1 | h2
        · exact h1 ▸ List.mem_cons_self a as
        · exact List.mem_cons_of_mem a (ih he h2)

theorem extractBy_filter_map_sum {p g : α → Bool} (f : α → Int) :
    ∀ {l : List α} {x : α} {rest : List α},
      extractBy p l = some (x, rest) →
      ((l.filter g).map f).sum =
        ((rest.filter g).map f).sum + (if g x then f x else 0) := by
  intro l
  induction l with
  | nil => intro x rest h; simp [extractBy] at h
  | cons a as ih =>
    intro x rest h
    by_cases hp : p a
    · simp [extractBy, hp] at h
      obtain ⟨rfl, rfl⟩ := h
      by_cases hg : g a <;> simp [hg, Int.add_comm]
    · simp [extractBy, hp] at h
      cases he : extractBy p as with
      | none => rw [he] at h; simp at h
      | some yr =>
        rw [he] at h
        simp at h
        obtain ⟨rfl, rfl⟩ := h
        have := ih he
        by_cases hg : g a <;> by_cases hgx : g yr.1 <;>
          simp [hg, hgx] at this ⊢ <;> omega

/- ## Ledger invariant preservation -/

theorem addProduct_preserves (s : Bool) (db : LedgerDB) (eid : Nat)
    (nm : String) (q pr : Int) (h : EntryInv db) :
    EntryInv (addProduct s db eid nm q pr).1 := by
  unfold addProduct
  cases hf : db.entries.find? (fun e => e.id == eid) with
  | none => exact h
  | some e0 =>
    by_cases hq : q < 0
    · simp only [hq, if_true]
      exact h
    · simp only [hq, if_false]
      intro e' he'
      simp only [List.mem_map] at he'
      obtain ⟨e, he, rfl⟩ := he'
      have hbal := h e he
      have hps := filter_map_sum_append_single db.products
        { id := db.nextProductId, entry_id := eid, product_name := nm,
          quantity := q, price_per_unit := pr, total_amount := q * pr }
      by_cases hid : e.id = eid
      · simp only [hid, beq_self_eq_true, if_true]
        have := hps eid
        simp only [beq_self_eq_true, if_true] at this
        simp only [this]
        rw [hid] at hbal
        omega
      · have hbeq : (e.id == eid) = false := by simpa using hid
        simp only [hbeq, Bool.false_eq_true, if_false]
        have := hps e.id
        have hbeq2 : (eid == e.id) = false := by
          simpa using fun hc => hid hc.symm
        simp only [hbeq2, Bool.false_eq_true, if_false, add_zero] at this
        simp only [this]
        exact hbal

theorem deleteProduct_preserves (s : Bool) (db : LedgerDB) (pid : Nat)
    (h : EntryInv db) : EntryInv (deleteProduct s db pid).1 := by
  unfold deleteProduct
  cases hf : extractBy (fun p => p.id == pid) db.products with
  | none => exact h
  | some pr =>
    obtain ⟨product, rest⟩ := pr
    intro e' he'
    simp only [List.mem_map] at he'
    obtain ⟨e, he, rfl⟩ := he'
    have hbal := h e he
    have hsum := extractBy_filter_map_sum (g := fun p => p.entry_id == e.id)
      (fun p => p.total_amount) hf
    simp only at hsum
    by_cases hid : e.id = product.entry_id
    · have hbeq : (e.id == product.entry_id) = true := by simpa using hid
      have hbeq2 : (product.entry_id == e.id) = true := by simpa using hid.symm
      simp only [hbeq, if_true]
      rw [hbeq2] at hsum
      simp only [if_true] at hsum
      simp only [prodSum, paySum] at hbal ⊢
      omega
    · have hbeq : (e.id == product.entry_id) = false := by simpa using hid
      have hbeq2 : (product.entry_id == e.id) = false := by
        simpa using fun hc => hid hc.symm
      simp only [hbeq, Bool.false_eq_true, if_false]
      rw [hbeq2] at hsum
      simp only [Bool.false_eq_true, if_false, add_zero] at hsum
      simp only [prodSum, paySum] at hbal ⊢
      omega

theorem addPayment_preserves (s : Bool) (db : LedgerDB) (eid : Nat)
    (a : Int) (d pd : String) (h : EntryInv db) :
    EntryInv (addPayment s db eid a d pd).1 := by
  unfold addPayment
  cases hf : db.entries.find? (fun e => e.id == eid) with
  | none => exact h
  | some e0 =>
    intro e' he'
    simp only [List.mem_map] at he'
    obtain ⟨e, he, rfl⟩ := he'
    have hbal := h e he
    have hps := paySum_append_single db.payments
      { id := db.nextPaymentId, entry_id := eid, amount := a,
        descr := d, payment_date := pd }
    by_cases hid : e.id = eid
    · simp only [hid, beq_self_eq_true, if_true]
      have := hps eid
      simp only [beq_self_eq_true, if_true] at this
      simp only [this]
      rw [hid] at hbal
      omega
    · have hbeq : (e.id == eid) = false := by simpa using hid
      simp only [hbeq, Bool.false_eq_true, if_false]
      have := hps e.id
      have hbeq2 : (eid == e.id) = false := by
        simpa using fun hc => hid hc.symm
      simp only [hbeq2, Bool.false_eq_true, if_false, add_zero] at this
      simp only [this]
      exact hbal

theorem deletePayment_preserves (s : Bool) (db : LedgerDB) (pid : Nat)
    (h : EntryInv db) : EntryInv (deletePayment s db pid).1 := by
  unfold deletePayment
  cases hf : extractBy (fun p => p.id == pid) db.payments with
  | none => exact h
  | some pr =>
    obtain ⟨payment, rest⟩ := pr
    intro e' he'
    simp only [List.mem_map] at he'
    obtain ⟨e, he, rfl⟩ := he'
    have hbal := h e he
    have hsum := extractBy_filter_map_sum (g := fun p => p.entry_id == e.id)
      (fun p => p.amount) hf
    simp only at hsum
    by_cases hid : e.id = payment.entry_id
    · have hbeq : (e.id == payment.entry_id) = true := by simpa using hid
      have hbeq2 : (payment.entry_id == e.id) = true := by simpa using hid.symm
      simp only [hbeq, if_true]
      rw [hbeq2] at hsum
      simp only [if_true] at hsum
      simp only [prodSum, paySum] at hbal ⊢
      omega
    · have hbeq : (e.id == payment.entry_id) = false := by simpa using hid
      have hbeq2 : (payment.entry_id == e.id) = false := by
        simpa using fun hc => hid hc.symm
      simp only [hbeq, Bool.false_eq_true, if_false]
      rw [hbeq2] at hsum
      simp only [Bool.false_eq_true, if_false, add_zero] at hsum
      simp only [prodSum, paySum] at hbal ⊢
      omega

theorem applyLedgerOp_preserves (db : LedgerDB) (op : LedgerOp)
    (h : EntryInv db) : EntryInv (applyLedgerOp db op) := by
  cases op with
  | addProduct i n q p => exact addProduct_preserves true db i n q p h
  | deleteProduct i => exact deleteProduct_preserves true db i h
  | addPayment i a d pd => exact addPayment_preserves true db i a d pd h
  | deletePayment i => exact deletePayment_preserves true db i h

theorem applyLedgerOps_preserves (ops : List LedgerOp) :
    ∀ (db : LedgerDB), EntryInv db → EntryInv (applyLedgerOps db ops) := by
  induction ops with
  | nil => intro db h; exact h
  | cons op ops ih =>
    intro db h
    exact ih (applyLedgerOp db op) (applyLedgerOp_preserves db op h)

theorem initialEntryDB_inv (eid emp : Nat) (month : String) :
    EntryInv (initialEntryDB eid emp month) := by
  intro e he
  simp [initialEntryDB] at he
  subst he
  simp [prodSum, paySum, initialEntryDB]

/- ## Warehouse non-negativity preservation -/

theorem addWarehouseMovement_nonneg (s : Bool) (db : WarehouseDB)
    (i : Nat) (t : String) (q k : Int) (d ds : String)
    (h : itemsNonneg db) (hk : 0 ≤ k) :
    itemsNonneg (addWarehouseMovement s db i t q k d ds).1 := by
  unfold addWarehouseMovement
  split
  · exact h
  · split
    · exact h
    · split
      · exact h
      · split
        · exact h
        · split
          · exact h
          · rename_i hq
            intro it' hit'
            dsimp only at hit'
            simp only [List.mem_map] at hit'
            obtain ⟨it, hit, rfl⟩ := hit'
            have hnn := h it hit
            by_cases hid : it.id == i
            · simp only [hid, if_true]
              by_cases htin : t == "in"
              · simp only [htin, if_true]
                refine ⟨?_, ?_⟩ <;> dsimp only <;> omega
              · simp only [htin, Bool.false_eq_true, if_false]
                exact ⟨le_max_left 0 _, le_max_left 0 _⟩
            · simp only [hid, Bool.false_eq_true, if_false]
              exact hnn

theorem deleteWarehouseMovement_nonneg (s : Bool) (db : WarehouseDB)
    (mid : Nat) (h : itemsNonneg db) :
    itemsNonneg (deleteWarehouseMovement s db mid).1 := by
  unfold deleteWarehouseMovement
  split
  · exact h
  · cases hex : extractBy (fun m => m.id == mid) db.movements with
    | none => exact h
    | some pr =>
      obtain ⟨movement, rest⟩ := pr
      dsimp only
      cases hfind : db.items.find? (fun it => it.id == movement.item_id) with
      | none => exact h
      | some it0 =>
        intro it' hit'
        dsimp only at hit'
        simp only [List.mem_map] at hit'
        obtain ⟨it, hit, rfl⟩ := hit'
        have hnn := h it hit
        by_cases hid : it.id == movement.item_id
        · simp only [hid, if_true]
          exact ⟨le_max_left 0 _, le_max_left 0 _⟩
        · simp only [hid, Bool.false_eq_true, if_false]
          exact hnn

theorem applyWarehouseOp_nonneg (db : WarehouseDB) (op : WarehouseOp)
    (h : itemsNonneg db) (hop : op.kgNonneg) :
    itemsNonneg (applyWarehouseOp db op) := by
  cases op with
  | add s i t q k d ds => exact addWarehouseMovement_nonneg s db i t q k d ds h hop
  | del s m => exact deleteWarehouseMovement_nonneg s db m h

/-- C1: for every sequence of AddProduct/DeleteProduct/AddPayment/
DeletePayment requests served against a database holding a single
`MonthlyEntry` that starts at balance 0, every entry's final `balance`
equals the sum of `total_amount` over the products still present minus the
sum of `amount` over the payments still present — a function of the
remaining rows only, hence independent of the order the operations were
served in. -/
theorem ledger_balance_invariant (ops : List LedgerOp) (eid emp : Nat)
    (month : String) :
    ∀ e ∈ (applyLedgerOps (initialEntryDB eid emp month) ops).entries,
      e.balance =
        prodSum (applyLedgerOps (initialEntryDB eid emp month) ops).products e.id
          - paySum (applyLedgerOps (initialEntryDB eid emp month) ops).payments e.id :=
  applyLedgerOps_preserves ops (initialEntryDB eid emp month)
    (initialEntryDB_inv eid emp month)

/-- Witness for C1 at a concrete request sequence: add two products
(totals 600 and 50), add a payment of 100, then delete the first product;
the surviving rows sum to `50 - 100 = -50`, which is the final balance. -/
theorem ledger_balance_invariant_witness :
    ({ id := 1, employee_id := 1, month := "2024-01-01", balance := -50 } : EntryRec)
        ∈ (applyLedgerOps (initialEntryDB 1 1 "2024-01-01")
            [.addProduct 1 "apple" 2 300, .addPayment 1 100 "" "2024-01-05",
             .addProduct 1 "pear" 1 50, .deleteProduct 0]).entries
      ∧ (-50 : Int) =
        prodSum (applyLedgerOps (initialEntryDB 1 1 "2024-01-01")
            [.addProduct 1 "apple" 2 300, .addPayment 1 100 "" "2024-01-05",
             .addProduct 1 "pear" 1 50, .deleteProduct 0]).products 1
          - paySum (applyLedgerOps (initialEntryDB 1 1 "2024-01-01")
            [.addProduct 1 "apple" 2 300, .addPayment 1 100 "" "2024-01-05",
             .addProduct 1 "pear" 1 50, .deleteProduct 0]).payments 1 := by
  refine ⟨by decide, ?_⟩
  exact ledger_balance_invariant
    [.addProduct 1 "apple" 2 300, .addPayment 1 100 "" "2024-01-05",
     .addProduct 1 "pear" 1 50, .deleteProduct 0] 1 1 "2024-01-01"
    { id := 1, employee_id := 1, month := "2024-01-01", balance := -50 }
    (by decide)

/-- C6 (counterexample to the claim as stated): starting from an item with
`quantity = 0` and `quantity_kg = 0`, a single staff AddMovement request of
type `"in"` with `quantity = 1` and `quantity_kg = -1` passes the view's
validation (it only rejects when *both* quantities are non-positive) and
drives the item's `quantity_kg` to `-1`, so the quantities are not
non-negative after every operation. -/
theorem warehouse_nonneg_claim_counterexample :
    itemsNonneg { items := [{ id := 1, name := "steel", descr := "",
                              quantity := 0, quantity_kg := 0 }],
                  movements := [], nextItemId := 2, nextMovementId := 0 }
      ∧ ¬ itemsNonneg (applyWarehouseOps
          { items := [{ id := 1, name := "steel", descr := "",
                        quantity := 0, quantity_kg := 0 }],
            movements := [], nextItemId := 2, nextMovementId := 0 }
          [.add true 1 "in" 1 (-1) "2024-02-01" ""]) := by
  constructor
  · intro it hit
    simp at hit
    subst hit
    exact ⟨le_refl 0, le_refl 0⟩
  · intro hcontra
    have := hcontra
      { id := 1, name := "steel", descr := "", quantity := 1, quantity_kg := -1 }
      (by decide)
    exact absurd this.2 (by decide)

/-- C6 (amended): for every sequence of AddMovement and DeleteMovement
requests in which each AddMovement carries a non-negative `quantity_kg`
(the argument domain the specification gives the operation), items whose
`quantity` and `quantity_kg` start non-negative stay non-negative after
every operation; an `out` movement larger than the on-hand amount clamps
the result to zero silently. -/
theorem warehouse_nonneg_invariant (ops : List WarehouseOp) :
    ∀ (db : WarehouseDB), itemsNonneg db →
      (∀ op ∈ ops, op.kgNonneg) →
      itemsNonneg (applyWarehouseOps db ops) := by
  induction ops with
  | nil => intro db h _; exact h
  | cons op ops ih =>
    intro db h hops
    exact ih (applyWarehouseOp db op)
      (applyWarehouseOp_nonneg db op h (hops op (List.mem_cons_self op ops)))
      (fun o ho => hops o (List.mem_cons_of_mem op ho))

/-- Witness for the amended C6: an oversized `out`, an `in`, and a deletion
of the `out` movement leave the single item non-negative. -/
theorem warehouse_nonneg_invariant_witness :
    itemsNonneg (applyWarehouseOps
      { items := [{ id := 1, name := "steel", descr := "",
                    quantity := 3, quantity_kg := 2 }],
        movements := [], nextItemId := 2, nextMovementId := 0 }
      [.add true 1 "out" 10 10 "2024-02-01" "",
       .add true 1 "in" 4 1 "2024-02-02" "",
       .del true 0]) :=
  warehouse_nonneg_invariant
    [.add true 1 "out" 10 10 "2024-02-01" "",
     .add true 1 "in" 4 1 "2024-02-02" "",
     .del true 0]
    { items := [{ id := 1, name := "steel", descr := "",
                  quantity := 3, quantity_kg := 2 }],
      movements := [], nextItemId := 2, nextMovementId := 0 }
    (by intro it hit; simp at hit; subst hit; constructor <;> decide)
    (by intro op hop; fin_cases hop <;> simp [WarehouseOp.kgNonneg])

/-- C2 (counterexample to the claim as stated): an item holds quantity 5, a
recorded `"in"` movement has quantity 10; deleting that movement yields
item quantity `max(0, 5 - 10) = 0`, not the claimed `5 - 10 = -5` — the
zero clamp applies to the reversal of an `"in"` movement as well. -/
theorem delete_in_movement_claim_counterexample :
    ((deleteWarehouseMovement true
        { items := [{ id := 1, name := "bolt", descr := "",
                      quantity := 5, quantity_kg := 0 }],
          movements := [{ id := 0, item_id := 1, mtype := "in",
                          quantity := 10, quantity_kg := 0,
                          mdate := "2024-02-01", descr := "" }],
          nextItemId := 2, nextMovementId := 1 }
        0).1.items.map ItemRec.quantity = [0])
      ∧ ¬ ((0 : Int) = 5 - 10) := by
  constructor
  · rfl
  · decide

/-- C2 (amended): deleting an `"in"` movement subtracts the movement's
`quantity` and `quantity_kg` from the owning item and then clamps each at
zero — the clamp in `DeleteWarehouseMovementAPIView.post` sits outside the
type test, so it applies to reversals of `"in"` movements too — and the
movement row is removed; the item's new quantity is
`max 0 (prior - movement.quantity)`. -/
theorem delete_in_movement_clamped (db : WarehouseDB) (mid : Nat)
    (m : MovementRec) (rest : List MovementRec)
    (hex : extractBy (fun mv => mv.id == mid) db.movements = some (m, rest))
    (ht : m.mtype = "in")
    (hit : (db.items.find? (fun it => it.id == m.item_id)).isSome) :
    (deleteWarehouseMovement true db mid).1.movements = rest
      ∧ ∀ it ∈ db.items,
        (if it.id == m.item_id then
          { it with quantity := max 0 (it.quantity - m.quantity),
                    quantity_kg := max 0 (it.quantity_kg - m.quantity_kg) }
         else it) ∈ (deleteWarehouseMovement true db mid).1.items := by
  unfold deleteWarehouseMovement
  simp only [Bool.not_true, Bool.false_eq_true, if_false, hex]
  cases hfind : db.items.find? (fun it => it.id == m.item_id) with
  | none => rw [hfind] at hit; simp at hit
  | some it0 =>
    dsimp only
    refine ⟨rfl, ?_⟩
    intro it hmem
    have hmap := List.mem_map_of_mem (f := fun it =>
      if it.id == m.item_id then
        let q := if m.mtype == "in" then it.quantity - m.quantity
          else it.quantity + m.quantity
        let k := if m.mtype == "in" then it.quantity_kg - m.quantity_kg
          else it.quantity_kg + m.quantity_kg
        { it with quantity := max 0 q, quantity_kg := max 0 k }
      else it) hmem
    simpa [ht] using hmap

/-- Witness for the amended C2 at the counterexample's state: the clamp
gives quantity 0 for the item that held 5 before the `"in"` movement of 10
was deleted. -/
theorem delete_in_movement_clamped_witness :
    ((deleteWarehouseMovement true
        { items := [{ id := 1, name := "bolt", descr := "",
                      quantity := 5, quantity_kg := 0 }],
          movements := [{ id := 0, item_id := 1, mtype := "in",
                          quantity := 10, quantity_kg := 0,
                          mdate := "2024-02-01", descr := "" }],
          nextItemId := 2, nextMovementId := 1 }
        0).1.movements = [])
      ∧ ({ id := 1, name := "bolt", descr := "",
           quantity := max 0 ((5 : Int) - 10),
           quantity_kg := max 0 ((0 : Int) - 0) } : ItemRec)
        ∈ (deleteWarehouseMovement true
            { items := [{ id := 1, name := "bolt", descr := "",
                          quantity := 5, quantity_kg := 0 }],
              movements := [{ id := 0, item_id := 1, mtype := "in",
                              quantity := 10, quantity_kg := 0,
                              mdate := "2024-02-01", descr := "" }],
              nextItemId := 2, nextMovementId := 1 }
            0).1.items := by
  have h := delete_in_movement_clamped
    { items := [{ id := 1, name := "bolt", descr := "",
                  quantity := 5, quantity_kg := 0 }],
      movements := [{ id := 0, item_id := 1, mtype := "in",
                      quantity := 10, quantity_kg := 0,
                      mdate := "2024-02-01", descr := "" }],
      nextItemId := 2, nextMovementId := 1 }
    0
    { id := 0, item_id := 1, mtype := "in", quantity := 10,
      quantity_kg := 0, mdate := "2024-02-01", descr := "" }
    [] (by decide) rfl (by decide)
  refine ⟨h.1, ?_⟩
  have h2 := h.2
    { id := 1, name := "bolt", descr := "", quantity := 5, quantity_kg := 0 }
    (by decide)
  simpa using h2

/-- C5: an item starting at quantity 10 receives an `out` movement of 15 —
the item is clamped to 0 while the stored movement keeps quantity 15 — and
deleting that movement adds the full 15 back, leaving the item at 15, not
10. -/
theorem warehouse_out_clamp_scenario :
    ((addWarehouseMovement true
        { items := [{ id := 1, name := "box", descr := "",
                      quantity := 10, quantity_kg := 0 }],
          movements := [], nextItemId := 2, nextMovementId := 0 }
        1 "out" 15 0 "2024-02-01" "").1.items.map ItemRec.quantity = [0])
      ∧ ((addWarehouseMovement true
          { items := [{ id := 1, name := "box", descr := "",
                        quantity := 10, quantity_kg := 0 }],
            movements := [], nextItemId := 2, nextMovementId := 0 }
          1 "out" 15 0 "2024-02-01" "").1.movements.map MovementRec.quantity = [15])
      ∧ ((deleteWarehouseMovement true
          (addWarehouseMovement true
            { items := [{ id := 1, name := "box", descr := "",
                          quantity := 10, quantity_kg := 0 }],
              movements := [], nextItemId := 2, nextMovementId := 0 }
            1 "out" 15 0 "2024-02-01" "").1
          0).1.items.map ItemRec.quantity = [15]) := by
  refine ⟨rfl, rfl, rfl⟩

/- ## Stats: the sequential filters collapse to one conjunctive predicate -/

theorem applyStatFilters_eq (txs : List TxRec) (f : StatFilters) :
    applyStatFilters txs f = txs.filter (fun t => specMatchesFilters f t) := by
  obtain ⟨ft, fm, fdf, fdt, fc⟩ := f
  cases fc with
  | none =>
    cases ft <;> cases fm <;> cases fdf <;> cases fdt <;>
      simp [applyStatFilters, specMatchesFilters, List.filter_filter,
        Bool.and_comm, Bool.and_left_comm, Bool.and_assoc]
  | some c =>
    by_cases hv : validCurrency c = true <;>
      cases ft <;> cases fm <;> cases fdf <;> cases fdt <;>
        simp [applyStatFilters, specMatchesFilters, List.filter_filter, hv,
          Bool.and_comm, Bool.and_left_comm, Bool.and_assoc]

theorem statsFiltered_eq (txs : List TxRec) (f : StatFilters)
    (p : TxRec → Bool) :
    (applyStatFilters txs f).filter p =
      txs.filter (fun t => specMatchesFilters f t && p t) := by
  rw [applyStatFilters_eq, List.filter_filter]
  simp [Bool.and_comm]

theorem statsFiltered2_eq (txs : List TxRec) (f : StatFilters)
    (p q : TxRec → Bool) :
    ((applyStatFilters txs f).filter p).filter q =
      txs.filter (fun t => (specMatchesFilters f t && p t) && q t) := by
  rw [statsFiltered_eq, List.filter_filter]
  simp [Bool.and_comm, Bool.and_left_comm, Bool.and_assoc]

/-- C7: for every transaction table, filter combination and currency, the
stats endpoint's `incomes_x` is the sum of `amount` over the matching
income rows in currency `x`, `expenses_x` the sum over the matching
expense rows, and `balance_x = incomes_x - expenses_x`; when no row
matches the filters in that currency both sums are 0 (the `Coalesce`
default), never null. -/
theorem stats_currency_partition (txs : List TxRec) (f : StatFilters)
    (curr : String) :
    statsIncomes txs f curr =
        ((txs.filter (fun t =>
          (specMatchesFilters f t && t.currency == curr)
            && t.ttype == "income")).map (fun t => t.amount)).sum
      ∧ statsExpenses txs f curr =
        ((txs.filter (fun t =>
          (specMatchesFilters f t && t.currency == curr)
            && t.ttype == "expense")).map (fun t => t.amount)).sum
      ∧ statsBalance txs f curr = statsIncomes txs f curr - statsExpenses txs f curr
      ∧ (txs.filter (fun t => specMatchesFilters f t && t.currency == curr) = [] →
          statsIncomes txs f curr = 0 ∧ statsExpenses txs f curr = 0) := by
  refine ⟨?_, ?_, rfl, ?_⟩
  · simp only [statsIncomes, sumAmounts, statsFiltered2_eq]
  · simp only [statsExpenses, sumAmounts, statsFiltered2_eq]
  · intro hempty
    have hnil : ∀ (ty : String),
        txs.filter (fun t =>
          (specMatchesFilters f t && (t.currency == curr))
            && (t.ttype == ty)) = [] := by
      intro ty
      rw [List.eq_nil_iff_forall_not_mem]
      intro t ht
      rw [List.mem_filter] at ht
      have hP : (specMatchesFilters f t && (t.currency == curr)) = true :=
        ((Bool.and_eq_true _ _).mp ht.2).1
      have hmem : t ∈ txs.filter
          (fun t => specMatchesFilters f t && t.currency == curr) :=
        List.mem_filter.mpr ⟨ht.1, hP⟩
      rw [hempty] at hmem
      exact absurd hmem (List.not_mem_nil t)
    constructor
    · simp only [statsIncomes, sumAmounts, statsFiltered2_eq, hnil,
        List.map_nil, List.sum_nil]
    · simp only [statsExpenses, sumAmounts, statsFiltered2_eq, hnil,
        List.map_nil, List.sum_nil]

/-- Witness for C7: with a `type=expense` filter, the single income row
matches nothing, so both sums for `uzs` are zero. -/
theorem stats_currency_partition_witness :
    statsIncomes
        [{ id := 0, ttype := "income", currency := "uzs", amount := 5,
           descr := "", tdate := 3, method_id := 1 }]
        { ftype := some "expense", method := none, date_from := none,
          date_to := none, currency := none } "uzs" = 0
      ∧ statsExpenses
        [{ id := 0, ttype := "income", currency := "uzs", amount := 5,
           descr := "", tdate := 3, method_id := 1 }]
        { ftype := some "expense", method := none, date_from := none,
          date_to := none, currency := none } "uzs" = 0 :=
  (stats_currency_partition
    [{ id := 0, ttype := "income", currency := "uzs", amount := 5,
       descr := "", tdate := 3, method_id := 1 }]
    { ftype := some "expense", method := none, date_from := none,
      date_to := none, currency := none } "uzs").2.2.2 (by decide)

/- ## Transaction currency normalization -/

theorem validCurrency_normalize (c : Option String) :
    validCurrency (normalizeCurrency c) = true := by
  cases c with
  | none => rfl
  | some c =>
    by_cases hv : validCurrency c = true
    · simp [normalizeCurrency, hv]
    · simp only [normalizeCurrency]
      rw [if_neg hv]
      decide

theorem createTransaction_currency (s : Bool) (db : TxDB) (tt : String)
    (a : Int) (d : String) (dt : Nat) (m : Nat) (c : Option String)
    (h : txCurrenciesValid db) :
    txCurrenciesValid (createTransaction s db tt a d dt m c).1 := by
  unfold createTransaction
  split
  · exact h
  · split
    · exact h
    · split
      · exact h
      · intro t ht
        dsimp only at ht
        rw [List.mem_append] at ht
        rcases ht with ht | ht
        · exact h t ht
        · simp only [List.mem_singleton] at ht
          subst ht
          exact validCurrency_normalize c

theorem updateTransaction_currency (s : Bool) (db : TxDB) (tid : Nat)
    (tt : Option String) (a : Option Int) (d : Option String)
    (dt : Option Nat) (m : Option Nat) (c : Option String)
    (h : txCurrenciesValid db) :
    txCurrenciesValid (updateTransaction s db tid tt a d dt m c).1 := by
  unfold updateTransaction
  split
  · exact h
  · cases hf : db.txs.find? (fun t => t.id == tid) with
    | none => exact h
    | some t =>
      dsimp only
      split
      · exact h
      · split
        · exact h
        · intro x hx
          dsimp only at hx
          simp only [List.mem_map] at hx
          obtain ⟨y, hy, rfl⟩ := hx
          by_cases hid : y.id == tid
          · simp only [hid, if_true]
            cases c with
            | none => exact h t (List.mem_of_find?_eq_some hf)
            | some c =>
              by_cases hv : validCurrency c = true
              · simp [hv]
              · simpa [hv] using h t (List.mem_of_find?_eq_some hf)
          · simp only [hid, Bool.false_eq_true, if_false]
            exact h y hy

theorem deleteTransaction_currency (s : Bool) (db : TxDB) (tid : Nat)
    (h : txCurrenciesValid db) :
    txCurrenciesValid (deleteTransaction s db tid).1 := by
  unfold deleteTransaction
  split
  · exact h
  · cases hex : extractBy (fun t => t.id == tid) db.txs with
    | none => exact h
    | some pr =>
      obtain ⟨t0, rest⟩ := pr
      intro t ht
      exact h t (extractBy_mem hex ht)

theorem applyTxOps_currency (ops : List TxOp) :
    ∀ (db : TxDB), txCurrenciesValid db →
      txCurrenciesValid (applyTxOps db ops) := by
  induction ops with
  | nil => intro db h; exact h
  | cons op ops ih =>
    intro db h
    refine ih (applyTxOp db op) ?_
    cases op with
    | create s t a d dt m c => exact createTransaction_currency s db t a d dt m c h
    | update s tid t a d dt m c =>
      exact updateTransaction_currency s db tid t a d dt m c h
    | del s tid => exact deleteTransaction_currency s db tid h

/-- C9: every transaction stored through the API carries a currency in
`{uzs, usd, afn}` — the validity of all stored currencies is preserved by
every create/update/delete request; on create a missing currency value
becomes `'uzs'`, an unrecognized one is silently replaced by `'uzs'` while
the request still succeeds (the row is appended with the normalized
currency); on update an unrecognized currency value changes no stored
row. -/
theorem transaction_currency_invariant :
    (∀ (ops : List TxOp) (db : TxDB), txCurrenciesValid db →
        txCurrenciesValid (applyTxOps db ops))
      ∧ normalizeCurrency none = "uzs"
      ∧ (∀ c : String, validCurrency c = false →
          normalizeCurrency (some c) = "uzs")
      ∧ (∀ (db : TxDB) (tt : String) (a : Int) (d : String) (dt m : Nat)
            (c : Option String),
          db.methods.contains m = true → 0 ≤ a →
          createTransaction true db tt a d dt m c =
            ({ db with
                txs := db.txs ++
                  [{ id := db.nextTxId, ttype := tt,
                     currency := normalizeCurrency c, amount := a,
                     descr := d, tdate := dt, method_id := m }],
                nextTxId := db.nextTxId + 1 },
             .ok "transaction created"))
      ∧ (∀ (db : TxDB) (tid : Nat) (c : String) (t : TxRec),
          db.txs.find? (fun x => x.id == tid) = some t →
          validCurrency c = false →
          ∀ x ∈ (updateTransaction true db tid none none none none none
                  (some c)).1.txs, x ∈ db.txs) := by
  refine ⟨fun ops db h => applyTxOps_currency ops db h, rfl, ?_, ?_, ?_⟩
  · intro c hc
    simp [normalizeCurrency, hc]
  · intro db tt a d dt m c hm ha
    unfold createTransaction
    have hna : ¬ (a < 0) := by omega
    have hm' : m ∈ db.methods := by simpa using hm
    simp [hm', hna]
  · intro db tid c t hf hc x hx
    unfold updateTransaction at hx
    rw [hf] at hx
    simp only [Bool.not_true, Bool.false_eq_true, if_false] at hx
    have ht' :
        ({ t with
            ttype := (none : Option String).getD t.ttype,
            amount := (none : Option Int).getD t.amount,
            descr := (none : Option String).getD t.descr,
            tdate := (none : Option Nat).getD t.tdate,
            method_id := (none : Option Nat).getD t.method_id,
            currency :=
              match some c with
              | some c => if validCurrency c then c else t.currency
              | none => t.currency } : TxRec) = t := by
      simp [hc]
    rw [ht'] at hx
    split at hx
    · exact hx
    · split at hx
      · exact hx
      · dsimp only at hx
        simp only [List.mem_map] at hx
        obtain ⟨y, hy, rfl⟩ := hx
        by_cases hid : y.id == tid
        · simp only [hid, if_true]
          exact List.mem_of_find?_eq_some hf
        · simp only [hid, Bool.false_eq_true, if_false]
          exact hy

/-- Witness for C9 at concrete inputs: a create with the unrecognized
currency `"eur"` stores `"uzs"` and succeeds; an update with `"eur"`
leaves the table's rows rows of the original table; and the sequence
preserves validity. -/
theorem transaction_currency_invariant_witness :
    txCurrenciesValid (applyTxOps
        { methods := [1], txs := [], nextTxId := 0 }
        [.create true "income" 5 "" 3 1 (some "eur"),
         .update true 0 none none none none none (some "eur")])
      ∧ normalizeCurrency (some "eur") = "uzs"
      ∧ createTransaction true { methods := [1], txs := [], nextTxId := 0 }
          "income" 5 "" 3 1 (some "eur") =
        ({ methods := [1],
           txs := [{ id := 0, ttype := "income",
                     currency := normalizeCurrency (some "eur"), amount := 5,
                     descr := "", tdate := 3, method_id := 1 }],
           nextTxId := 1 },
         .ok "transaction created")
      ∧ (∀ x ∈ (updateTransaction true
            { methods := [1],
              txs := [{ id := 0, ttype := "income", currency := "uzs",
                        amount := 5, descr := "", tdate := 3,
                        method_id := 1 }],
              nextTxId := 1 }
            0 none none none none none (some "eur")).1.txs,
          x ∈ [({ id := 0, ttype := "income", currency := "uzs", amount := 5,
                  descr := "", tdate := 3, method_id := 1 } : TxRec)]) := by
  refine ⟨?_, ?_, ?_, ?_⟩
  · exact transaction_currency_invariant.1
      [.create true "income" 5 "" 3 1 (some "eur"),
       .update true 0 none none none none none (some "eur")]
      { methods := [1], txs := [], nextTxId := 0 }
      (by intro t ht; simp at ht)
  · exact transaction_currency_invariant.2.2.1 "eur" (by decide)
  · exact transaction_currency_invariant.2.2.2.1
      { methods := [1], txs := [], nextTxId := 0 }
      "income" 5 "" 3 1 (some "eur") (by decide) (by decide)
  · exact transaction_currency_invariant.2.2.2.2
      { methods := [1],
        txs := [{ id := 0, ttype := "income", currency := "uzs", amount := 5,
                  descr := "", tdate := 3, method_id := 1 }],
        nextTxId := 1 }
      0 "eur"
      { id := 0, ttype := "income", currency := "uzs", amount := 5,
        descr := "", tdate := 3, method_id := 1 }
      (by decide) (by decide)

/-- C3 (counterexample to the claim as stated): `CreateUserAPIView.post`
performs no staff check, so an authenticated non-staff user creating a
user succeeds (HTTP 200, not 403) and a user row — here even a staff one —
is created. -/
theorem staff_gate_claim_counterexample :
    (createUser false { users := [], nextUserId := 0 }
        "eve" "pw" "" "" "" true true).2.isOk = true
      ∧ (createUser false { users := [], nextUserId := 0 }
          "eve" "pw" "" "" "" true true).1.users
        = [{ id := 0, username := "eve", password := "pw", first_name := "",
             last_name := "", email := "", is_staff := true,
             is_active := true }]
      ∧ (createUser false { users := [], nextUserId := 0 }
          "eve" "pw" "" "" "" true true).2.statusCode ≠ 403 := by
  refine ⟨rfl, rfl, by decide⟩

/-- C3 (amended): every mutating request among transaction
create/update/delete, employee delete and the warehouse writes made by an
authenticated non-staff user returns HTTP 403 with the endpoint's fixed
message and leaves the database untouched — in particular a non-staff POST
to `/api/transaction/create/` returns 403 and creates no transaction row.
The user create, update and delete endpoints, by contrast, perform no
staff check: their results do not depend on the caller's staff flag and
their status is never 403. -/
theorem staff_gate_on_mutations :
    (∀ (db : TxDB) (tt : String) (a : Int) (d : String) (dt m : Nat)
        (c : Option String),
        createTransaction false db tt a d dt m c =
          (db, .err 403 permissionDeniedMsg))
      ∧ (∀ (db : TxDB) (tid : Nat) (tt : Option String) (a : Option Int)
          (d : Option String) (dt : Option Nat) (m : Option Nat)
          (c : Option String),
          updateTransaction false db tid tt a d dt m c =
            (db, .err 403 permissionDeniedMsg))
      ∧ (∀ (db : TxDB) (tid : Nat),
          deleteTransaction false db tid = (db, .err 403 permissionDeniedMsg))
      ∧ (∀ (db : EmployeeDB) (eid : Nat),
          deleteEmployee false db eid = (db, .err 403 notAuthorizedMsg))
      ∧ (∀ (db : WarehouseDB) (n : String) (q k : Int) (d : String),
          createWarehouseItem false db n q k d = (db, .err 403 notAuthorizedMsg))
      ∧ (∀ (db : WarehouseDB) (iid : Nat) (n d : Option String)
          (q k : Option Int),
          updateWarehouseItem false db iid n d q k =
            (db, .err 403 notAuthorizedMsg))
      ∧ (∀ (db : WarehouseDB) (iid : Nat),
          deleteWarehouseItem false db iid = (db, .err 403 notAuthorizedMsg))
      ∧ (∀ (db : WarehouseDB) (iid : Nat) (t : String) (q k : Int)
          (dd ds : String),
          addWarehouseMovement false db iid t q k dd ds =
            (db, .err 403 notAuthorizedMsg))
      ∧ (∀ (db : WarehouseDB) (mid : Nat),
          deleteWarehouseMovement false db mid =
            (db, .err 403 notAuthorizedMsg))
      ∧ (∀ (s : Bool) (db : UserDB) (u pw fn ln em : String) (sf af : Bool),
          createUser s db u pw fn ln em sf af =
              createUser false db u pw fn ln em sf af
            ∧ (createUser s db u pw fn ln em sf af).2.statusCode ≠ 403)
      ∧ (∀ (s : Bool) (db : UserDB) (uid : Nat) (fn ln em : Option String)
          (sf af : Option Bool) (pw : Option String),
          updateUser s db uid fn ln em sf af pw =
              updateUser false db uid fn ln em sf af pw
            ∧ (updateUser s db uid fn ln em sf af pw).2.statusCode ≠ 403)
      ∧ (∀ (s : Bool) (db : UserDB) (uid : Nat),
          deleteUser s db uid = deleteUser false db uid
            ∧ (deleteUser s db uid).2.statusCode ≠ 403) := by
  refine ⟨fun _ _ _ _ _ _ _ => rfl, fun _ _ _ _ _ _ _ _ => rfl,
    fun _ _ => rfl, fun _ _ => rfl, fun _ _ _ _ _ => rfl,
    fun _ _ _ _ _ _ => rfl, fun _ _ => rfl, fun _ _ _ _ _ _ _ => rfl,
    fun _ _ => rfl, ?_, ?_, ?_⟩
  · intro s db u pw fn ln em sf af
    refine ⟨rfl, ?_⟩
    unfold createUser
    cases db.users.find? (fun x => x.username == u) with
    | none => simp [Resp.statusCode]
    | some u0 => simp [Resp.statusCode]
  · intro s db uid fn ln em sf af pw
    refine ⟨rfl, ?_⟩
    unfold updateUser
    cases db.users.find? (fun x => x.id == uid) with
    | none => simp [Resp.statusCode]
    | some u0 => simp [Resp.statusCode]
  · intro s db uid
    refine ⟨rfl, ?_⟩
    unfold deleteUser
    cases extractBy (fun x => x.id == uid) db.users with
    | none => simp [Resp.statusCode]
    | some pr => obtain ⟨u0, rest⟩ := pr; simp [Resp.statusCode]

/-- C4 (counterexample to the claim as stated): an AddProduct request with
`quantity = 0` does not fail — `PositiveIntegerField`'s constraint is
`quantity >= 0`, which 0 satisfies — so the request succeeds, a
`MonthlyProduct` row with `total_amount = 0` is created, and the balance
stays 0. -/
theorem add_product_zero_quantity_counterexample :
    (addProduct true (initialEntryDB 1 1 "2024-01-01") 1 "pen" 0 500).2.isOk
        = true
      ∧ (addProduct true (initialEntryDB 1 1 "2024-01-01") 1 "pen" 0 500).1.products
        = [{ id := 0, entry_id := 1, product_name := "pen", quantity := 0,
             price_per_unit := 500, total_amount := 0 }]
      ∧ (addProduct true (initialEntryDB 1 1 "2024-01-01") 1 "pen" 0 500).1.entries.map
          EntryRec.balance = [0] := by
  refine ⟨rfl, rfl, rfl⟩

/-- C4 (amended): an AddProduct request whose quantity is negative, or
whose referenced entry does not exist (or whose price fails to parse,
which aborts before anything is written), yields HTTP 400, creates no
`MonthlyProduct` row and leaves every balance unchanged; a request with
`quantity = 0` succeeds, storing a product with `total_amount = 0`. -/
theorem add_product_invalid_rejected (s : Bool) (db : LedgerDB) (eid : Nat)
    (nm : String) (q pr : Int)
    (h : q < 0 ∨ db.entries.find? (fun e => e.id == eid) = none) :
    (addProduct s db eid nm q pr).1 = db
      ∧ (addProduct s db eid nm q pr).2.statusCode = 400 := by
  unfold addProduct
  cases hf : db.entries.find? (fun e => e.id == eid) with
  | none => exact ⟨rfl, rfl⟩
  | some e0 =>
    rcases h with hq | hnone
    · rw [if_pos hq]
      exact ⟨rfl, rfl⟩
    · rw [hf] at hnone
      cases hnone

/-- Witness for the amended C4: a request with quantity `-1` against the
fresh single-entry database is rejected with 400 and changes nothing. -/
theorem add_product_invalid_rejected_witness :
    (addProduct true (initialEntryDB 1 1 "2024-01-01") 1 "pen" (-1) 500).1
        = initialEntryDB 1 1 "2024-01-01"
      ∧ (addProduct true (initialEntryDB 1 1 "2024-01-01") 1 "pen" (-1) 500).2.statusCode
        = 400 :=
  add_product_invalid_rejected true (initialEntryDB 1 1 "2024-01-01") 1 "pen"
    (-1) 500 (Or.inl (by decide))

/-- C8: when no `MonthlyEntry` exists for `(employee, month)` and the
employee exists, CreateEntry succeeds and appends an entry with balance 0;
a second CreateEntry for the same pair fails with the fixed conflict
message and returns the database unchanged — the existing entry, balance
included, is untouched. -/
theorem monthly_entry_conflict (s s' : Bool) (db : LedgerDB) (emp : Nat)
    (month : String)
    (hemp : db.employees.contains emp = true)
    (hnone : db.entries.find?
      (fun e => e.employee_id == emp && e.month == month) = none) :
    (createMonthlyEntry s db emp month).2.isOk = true
      ∧ (createMonthlyEntry s db emp month).1.entries =
          db.entries ++ [{ id := db.nextEntryId, employee_id := emp,
                           month := month, balance := 0 }]
      ∧ createMonthlyEntry s' (createMonthlyEntry s db emp month).1 emp month =
          ((createMonthlyEntry s db emp month).1,
           .err 400 "Monthly entry already exists for this employee and month") := by
  have h1 : createMonthlyEntry s db emp month =
      ({ db with
          entries := db.entries ++
            [{ id := db.nextEntryId, employee_id := emp, month := month,
               balance := 0 }],
          nextEntryId := db.nextEntryId + 1 },
       .ok "entry created") := by
    unfold createMonthlyEntry
    rw [hnone]
    rw [if_pos hemp]
  refine ⟨by simp [h1, Resp.isOk], by simp [h1], ?_⟩
  rw [h1]
  dsimp only
  unfold createMonthlyEntry
  rw [List.find?_append, hnone]
  simp [List.find?]

/-- Witness for C8 on a fresh database holding employee 7. -/
theorem monthly_entry_conflict_witness :
    (createMonthlyEntry true
        { employees := [7], entries := [], products := [], payments := [],
          nextEntryId := 0, nextProductId := 0, nextPaymentId := 0 }
        7 "2024-03-01").2.isOk = true
      ∧ (createMonthlyEntry true
          { employees := [7], entries := [], products := [], payments := [],
            nextEntryId := 0, nextProductId := 0, nextPaymentId := 0 }
          7 "2024-03-01").1.entries =
        [] ++ [{ id := 0, employee_id := 7, month := "2024-03-01", balance := 0 }]
      ∧ createMonthlyEntry false
          (createMonthlyEntry true
            { employees := [7], entries := [], products := [], payments := [],
              nextEntryId := 0, nextProductId := 0, nextPaymentId := 0 }
            7 "2024-03-01").1 7 "2024-03-01" =
        ((createMonthlyEntry true
            { employees := [7], entries := [], products := [], payments := [],
              nextEntryId := 0, nextProductId := 0, nextPaymentId := 0 }
            7 "2024-03-01").1,
         .err 400 "Monthly entry already exists for this employee and month") :=
  monthly_entry_conflict true false
    { employees := [7], entries := [], products := [], payments := [],
      nextEntryId := 0, nextProductId := 0, nextPaymentId := 0 }
    7 "2024-03-01" (by decide) (by decide)

/-- C10: the five ledger mutators — AddProduct, DeleteProduct, AddPayment,
DeletePayment and CreateEntry — perform no staff check: their outcome is
the same for a staff and a non-staff caller and their status is never 403;
concretely, a non-staff AddPayment moves the fresh entry's balance to
`-100`. -/
theorem ledger_no_staff_check :
    (∀ (s : Bool) (db : LedgerDB) (eid : Nat) (nm : String) (q pr : Int),
        addProduct s db eid nm q pr = addProduct false db eid nm q pr
          ∧ (addProduct s db eid nm q pr).2.statusCode ≠ 403)
      ∧ (∀ (s : Bool) (db : LedgerDB) (pid : Nat),
          deleteProduct s db pid = deleteProduct false db pid
            ∧ (deleteProduct s db pid).2.statusCode ≠ 403)
      ∧ (∀ (s : Bool) (db : LedgerDB) (eid : Nat) (a : Int) (d pd : String),
          addPayment s db eid a d pd = addPayment false db eid a d pd
            ∧ (addPayment s db eid a d pd).2.statusCode ≠ 403)
      ∧ (∀ (s : Bool) (db : LedgerDB) (pid : Nat),
          deletePayment s db pid = deletePayment false db pid
            ∧ (deletePayment s db pid).2.statusCode ≠ 403)
      ∧ (∀ (s : Bool) (db : LedgerDB) (emp : Nat) (month : String),
          createMonthlyEntry s db emp month = createMonthlyEntry false db emp month
            ∧ (createMonthlyEntry s db emp month).2.statusCode ≠ 403)
      ∧ ((addPayment false (initialEntryDB 1 1 "2024-01-01")
            1 100 "" "2024-01-05").1.entries.map EntryRec.balance = [-100]) := by
  refine ⟨?_, ?_, ?_, ?_, ?_, rfl⟩
  · intro s db eid nm q pr
    refine ⟨rfl, ?_⟩
    unfold addProduct
    cases db.entries.find? (fun e => e.id == eid) with
    | none => simp [Resp.statusCode]
    | some e0 =>
      by_cases hq : q < 0
      · simp [hq, Resp.statusCode]
      · simp [hq, Resp.statusCode]
  · intro s db pid
    refine ⟨rfl, ?_⟩
    unfold deleteProduct
    cases extractBy (fun p => p.id == pid) db.products with
    | none => simp [Resp.statusCode]
    | some pr => obtain ⟨p0, rest⟩ := pr; simp [Resp.statusCode]
  · intro s db eid a d pd
    refine ⟨rfl, ?_⟩
    unfold addPayment
    cases db.entries.find? (fun e => e.id == eid) with
    | none => simp [Resp.statusCode]
    | some e0 => simp [Resp.statusCode]
  · intro s db pid
    refine ⟨rfl, ?_⟩
    unfold deletePayment
    cases extractBy (fun p => p.id == pid) db.payments with
    | none => simp [Resp.statusCode]
    | some pr => obtain ⟨p0, rest⟩ := pr; simp [Resp.statusCode]
  · intro s db emp month
    refine ⟨rfl, ?_⟩
    unfold createMonthlyEntry
    cases db.entries.find?
        (fun e => e.employee_id == emp && e.month == month) with
    | none =>
      by_cases hemp : emp ∈ db.employees
      · simp [hemp, Resp.statusCode]
      · simp [hemp, Resp.statusCode]
    | some e0 => simp [Resp.statusCode]

end FinTrack
